import Mathlib

/-!
# Verification of the MediaVizard detection-fusion and redaction core

This development gives a shallow embedding, over exact rational arithmetic,
of the candidate-fusion pipeline, the redaction renderer, the manual-zone
sizing heuristic and the single-flight detection guard of the MediaVizard
image-redaction application, and proves (or refutes) the properties stated
in its specification.

JavaScript numbers are modelled by the rationals, `Math.min`, `Math.max`
and `Math.round` by `jsMin`, `jsMax` and `jsRound`; external effects
(model inference, canvas pixel access, image decoding) are modelled by
explicit oracle parameters recording whether each effect succeeds.
-/

namespace MediaVizard

/-- JavaScript `Math.round`: round half toward positive infinity. -/
def jsRound (q : ℚ) : ℚ := (⌊q + 1 / 2⌋ : ℤ)

/-- JavaScript `Math.min` on two (finite) numbers. -/
def jsMin (a b : ℚ) : ℚ := if a ≤ b then a else b

/-- JavaScript `Math.max` on two (finite) numbers. -/
def jsMax (a b : ℚ) : ℚ := if a ≤ b then b else a

lemma jsMin_comm (a b : ℚ) : jsMin a b = jsMin b a := by
  unfold jsMin
  split_ifs <;> linarith

lemma jsMax_comm (a b : ℚ) : jsMax a b = jsMax b a := by
  unfold jsMax
  split_ifs <;> linarith

lemma jsMin_le_left (a b : ℚ) : jsMin a b ≤ a := by
  unfold jsMin
  split_ifs with h
  · exact le_refl a
  · linarith

lemma jsMin_le_right (a b : ℚ) : jsMin a b ≤ b := by
  unfold jsMin
  split_ifs with h
  · exact h
  · exact le_refl b

lemma le_jsMax_left (a b : ℚ) : a ≤ jsMax a b := by
  unfold jsMax
  split_ifs with h
  · exact h
  · exact le_refl a

lemma le_jsMax_right (a b : ℚ) : b ≤ jsMax a b := by
  unfold jsMax
  split_ifs with h
  · exact le_refl b
  · linarith

lemma jsMax_le {a b c : ℚ} (ha : a ≤ c) (hb : b ≤ c) : jsMax a b ≤ c := by
  unfold jsMax
  split_ifs <;> assumption

lemma le_jsMin {a b c : ℚ} (ha : c ≤ a) (hb : c ≤ b) : c ≤ jsMin a b := by
  unfold jsMin
  split_ifs <;> assumption

lemma jsMax_self (a : ℚ) : jsMax a a = a := by
  unfold jsMax
  split_ifs <;> rfl

lemma jsMin_self (a : ℚ) : jsMin a a = a := by
  unfold jsMin
  split_ifs <;> rfl

lemma jsMax_eq_right {a b : ℚ} (h : a ≤ b) : jsMax a b = b := by
  unfold jsMax
  rw [if_pos h]

lemma jsMax_le_jsMax_right {a b c : ℚ} (h : b ≤ c) : jsMax a b ≤ jsMax a c :=
  jsMax_le (le_jsMax_left a c) (le_trans h (le_jsMax_right a c))

/-- An axis-aligned rectangle `{x, y, width, height}` as used throughout
the `ImageProcessor` pipeline. -/
structure Rect where
  x : ℚ
  y : ℚ
  width : ℚ
  height : ℚ
  deriving DecidableEq, Repr

/-- `ImageProcessor.calculateIoU`: intersection area over union area of two
axis-aligned rectangles, defined to be 0 when they do not intersect. -/
def calculateIoU (box1 box2 : Rect) : ℚ :=
  let x1 := jsMax box1.x box2.x
  let y1 := jsMax box1.y box2.y
  let x2 := jsMin (box1.x + box1.width) (box2.x + box2.width)
  let y2 := jsMin (box1.y + box1.height) (box2.y + box2.height)
  if x2 ≤ x1 ∨ y2 ≤ y1 then 0
  else
    let intersection := (x2 - x1) * (y2 - y1)
    let area1 := box1.width * box1.height
    let area2 := box2.width * box2.height
    let union := area1 + area2 - intersection
    intersection / union

lemma calculateIoU_comm (b1 b2 : Rect) : calculateIoU b1 b2 = calculateIoU b2 b1 := by
  unfold calculateIoU
  simp only
  rw [jsMax_comm b1.x b2.x, jsMax_comm b1.y b2.y,
    jsMin_comm (b1.x + b1.width) (b2.x + b2.width),
    jsMin_comm (b1.y + b1.height) (b2.y + b2.height)]
  split_ifs with h
  · rfl
  · ring

lemma calculateIoU_mem_unitInterval (b1 b2 : Rect) :
    0 ≤ calculateIoU b1 b2 ∧ calculateIoU b1 b2 ≤ 1 := by
  unfold calculateIoU
  simp only
  split_ifs with h
  · exact ⟨le_refl 0, by norm_num⟩
  · push_neg at h
    obtain ⟨hx, hy⟩ := h
    set x1 := jsMax b1.x b2.x with hx1
    set y1 := jsMax b1.y b2.y with hy1
    set x2 := jsMin (b1.x + b1.width) (b2.x + b2.width) with hx2
    set y2 := jsMin (b1.y + b1.height) (b2.y + b2.height) with hy2
    have hdx : 0 < x2 - x1 := by linarith
    have hdy : 0 < y2 - y1 := by linarith
    have hw1 : x2 - x1 ≤ b1.width := by
      have h1 : x2 ≤ b1.x + b1.width := jsMin_le_left _ _
      have h2 : b1.x ≤ x1 := le_jsMax_left _ _
      linarith
    have hw2 : x2 - x1 ≤ b2.width := by
      have h1 : x2 ≤ b2.x + b2.width := jsMin_le_right _ _
      have h2 : b2.x ≤ x1 := le_jsMax_right _ _
      linarith
    have hh1 : y2 - y1 ≤ b1.height := by
      have h1 : y2 ≤ b1.y + b1.height := jsMin_le_left _ _
      have h2 : b1.y ≤ y1 := le_jsMax_left _ _
      linarith
    have hh2 : y2 - y1 ≤ b2.height := by
      have h1 : y2 ≤ b2.y + b2.height := jsMin_le_right _ _
      have h2 : b2.y ≤ y1 := le_jsMax_right _ _
      linarith
    have hI : 0 < (x2 - x1) * (y2 - y1) := mul_pos hdx hdy
    have hA1 : (x2 - x1) * (y2 - y1) ≤ b1.width * b1.height := by
      apply mul_le_mul hw1 hh1 (le_of_lt hdy)
      linarith
    have hA2 : (x2 - x1) * (y2 - y1) ≤ b2.width * b2.height := by
      apply mul_le_mul hw2 hh2 (le_of_lt hdy)
      linarith
    have hU : 0 < b1.width * b1.height + b2.width * b2.height - (x2 - x1) * (y2 - y1) := by
      linarith
    constructor
    · exact div_nonneg (le_of_lt hI) (le_of_lt hU)
    · rw [div_le_one hU]
      linarith

lemma calculateIoU_of_disjoint (b1 b2 : Rect)
    (h : jsMin (b1.x + b1.width) (b2.x + b2.width) ≤ jsMax b1.x b2.x ∨
         jsMin (b1.y + b1.height) (b2.y + b2.height) ≤ jsMax b1.y b2.y) :
    calculateIoU b1 b2 = 0 := by
  unfold calculateIoU
  simp only
  rw [if_pos h]

lemma calculateIoU_example :
    calculateIoU ⟨0, 0, 10, 10⟩ ⟨5, 5, 10, 10⟩ = 25 / 175 := by
  norm_num [calculateIoU, jsMin, jsMax]

lemma calculateIoU_self (b : Rect) (hw : 0 < b.width) (hh : 0 < b.height) :
    calculateIoU b b = 1 := by
  unfold calculateIoU
  simp only [jsMax_self, jsMin_self]
  rw [if_neg]
  · have harea : 0 < b.width * b.height := mul_pos hw hh
    have h1 : b.x + b.width - b.x = b.width := by ring
    have h2 : b.y + b.height - b.y = b.height := by ring
    rw [h1, h2]
    field_simp
  · push_neg
    constructor <;> linarith

/-- C5. The IoU computation is symmetric, always lies in `[0,1]`, equals 0
for non-intersecting rectangles (those whose horizontal or vertical clamped
intervals are empty), equals 1 for a positive-area rectangle paired with
itself, and on boxes `{0,0,10,10}` and `{5,5,10,10}` equals `25 / 175`
(intersection 25, union 175), which is `1 / 7 ≈ 0.143`. -/
theorem calculateIoU_spec :
    (∀ b1 b2 : Rect, calculateIoU b1 b2 = calculateIoU b2 b1) ∧
    (∀ b1 b2 : Rect, 0 ≤ calculateIoU b1 b2 ∧ calculateIoU b1 b2 ≤ 1) ∧
    (∀ b1 b2 : Rect,
      (jsMin (b1.x + b1.width) (b2.x + b2.width) ≤ jsMax b1.x b2.x ∨
       jsMin (b1.y + b1.height) (b2.y + b2.height) ≤ jsMax b1.y b2.y) →
      calculateIoU b1 b2 = 0) ∧
    (∀ b : Rect, 0 < b.width → 0 < b.height → calculateIoU b b = 1) ∧
    calculateIoU ⟨0, 0, 10, 10⟩ ⟨5, 5, 10, 10⟩ = 25 / 175 ∧ (25 : ℚ) / 175 = 1 / 7 :=
  ⟨calculateIoU_comm, calculateIoU_mem_unitInterval, calculateIoU_of_disjoint,
   calculateIoU_self, calculateIoU_example, by norm_num⟩

/-- Witness for `calculateIoU_spec` at concrete rectangles: the disjoint pair
`{0,0,10,10}`, `{20,20,5,5}` has IoU 0, and `{0,0,10,10}` with itself has IoU 1. -/
theorem calculateIoU_spec_witness :
    calculateIoU ⟨0, 0, 10, 10⟩ ⟨20, 20, 5, 5⟩ = 0 ∧
    calculateIoU ⟨0, 0, 10, 10⟩ ⟨0, 0, 10, 10⟩ = 1 :=
  ⟨calculateIoU_spec.2.2.1 ⟨0, 0, 10, 10⟩ ⟨20, 20, 5, 5⟩ (by norm_num [jsMin, jsMax]),
   calculateIoU_spec.2.2.2.1 ⟨0, 0, 10, 10⟩ (by norm_num) (by norm_num)⟩

/-- JavaScript `String.includes`: substring test, used by the cluster scoring
to recognize candidates whose `source` names the MediaPipe Full model. -/
def strIncludes (s pat : String) : Bool :=
  (List.range (s.data.length + 1)).any fun i => List.isPrefixOf pat.data (s.data.drop i)

/-- A raw detection candidate (`FaceCandidate` in the source). The optional
landmark point set is modelled by its presence flag, which is all the
pipeline inspects (`if (candidate.landmarks) score *= 1.15`). -/
structure FaceCandidate where
  x : ℚ
  y : ℚ
  width : ℚ
  height : ℚ
  confidence : ℚ
  source : String
  landmarks : Bool
  deriving DecidableEq, Repr

/-- The rectangle of a candidate. -/
def FaceCandidate.toRect (c : FaceCandidate) : Rect := ⟨c.x, c.y, c.width, c.height⟩

/-- A final detected face as returned by the pipeline. -/
structure Face where
  x : ℚ
  y : ℚ
  width : ℚ
  height : ℚ
  confidence : ℚ
  deriving DecidableEq, Repr

/-- The sensitivity-dependent confidence floor of the quality filter:
`Math.max(0.1, 0.6 - (sensitivity * 0.4))`. -/
def confidenceFloor (sensitivity : ℚ) : ℚ := jsMax 0.1 (0.6 - sensitivity * 0.4)

/-- The per-candidate test of `ImageProcessor.advancedQualityFilter`:
size window, aspect-ratio window, confidence floor and image-bounds check. -/
def qualityPass (imgWidth imgHeight sensitivity : ℚ) (candidate : FaceCandidate) : Bool :=
  let minSize := jsMin imgWidth imgHeight * (if 0.7 < sensitivity then 0.008 else 0.015)
  let maxSize := jsMin imgWidth imgHeight * 0.8
  if candidate.width < minSize ∨ candidate.height < minSize then false
  else if maxSize < candidate.width ∨ maxSize < candidate.height then false
  else
    let aspectRatio := candidate.width / candidate.height
    if aspectRatio < 0.4 ∨ 2.5 < aspectRatio then false
    else if candidate.confidence < confidenceFloor sensitivity then false
    else if candidate.x < 0 ∨ candidate.y < 0 then false
    else if imgWidth < candidate.x + candidate.width ∨
            imgHeight < candidate.y + candidate.height then false
    else true

/-- `ImageProcessor.advancedQualityFilter`. -/
def advancedQualityFilter (candidates : List FaceCandidate)
    (imgWidth imgHeight sensitivity : ℚ) : List FaceCandidate :=
  candidates.filter (qualityPass imgWidth imgHeight sensitivity)

/-- Insert one candidate into a list already sorted by descending confidence,
before the first strictly less confident element. -/
def insertByConfidenceDesc (c : FaceCandidate) : List FaceCandidate → List FaceCandidate
  | [] => [c]
  | d :: rest =>
    if c.confidence < d.confidence then d :: insertByConfidenceDesc c rest
    else c :: d :: rest

/-- The stable descending-confidence sort performed by
`candidates.sort((a, b) => b.confidence - a.confidence)`. -/
def sortByConfidenceDesc : List FaceCandidate → List FaceCandidate
  | [] => []
  | c :: rest => insertByConfidenceDesc c (sortByConfidenceDesc rest)

/-- A cluster: its representative (the first member, which comparisons are
made against) together with the members added after it. -/
abbrev Cluster := FaceCandidate × List FaceCandidate

/-- All members of a cluster, representative first. -/
def Cluster.members (cl : Cluster) : List FaceCandidate := cl.1 :: cl.2

/-- The sensitivity-dependent clustering IoU threshold:
`sensitivity > 0.7 ? 0.3 : 0.5`. -/
def clusterThreshold (sensitivity : ℚ) : ℚ := if 0.7 < sensitivity then 0.3 else 0.5

/-- The inner loop of `ImageProcessor.confidenceBasedClustering`: add a
candidate to the first cluster whose representative has IoU with it above
the threshold, or open a new cluster at the end of the list. -/
def addToClusters (threshold : ℚ) (candidate : FaceCandidate) :
    List Cluster → List Cluster
  | [] => [(candidate, [])]
  | (rep, ms) :: rest =>
    if threshold < calculateIoU candidate.toRect rep.toRect then
      (rep, ms ++ [candidate]) :: rest
    else
      (rep, ms) :: addToClusters threshold candidate rest

/-- The weighted score used by `ImageProcessor.selectBestFromCluster`:
confidence, times 1.1 for a `MediaPipe Full` source, times 1.15 when the
candidate carries validated landmarks. -/
def clusterScore (candidate : FaceCandidate) : ℚ :=
  let score := candidate.confidence
  let score := if strIncludes candidate.source "MediaPipe Full" then score * 1.1 else score
  if candidate.landmarks then score * 1.15 else score

/-- `ImageProcessor.selectBestFromCluster`: a singleton cluster is returned
unchanged; otherwise the highest-scoring member keeps its identity and score
(capped at 1) while its geometry becomes the rounded arithmetic mean of all
members. The source's unused `sensitivity` parameter is omitted. -/
def selectBestFromCluster : Cluster → FaceCandidate
  | (rep, []) => rep
  | (rep, m :: ms) =>
    let cluster := rep :: m :: ms
    let best := (m :: ms).foldl
      (fun a b => if clusterScore b < clusterScore a then a else b) rep
    let n : ℚ := (cluster.length : ℚ)
    let avgX := cluster.foldl (fun sum c => sum + c.x) 0 / n
    let avgY := cluster.foldl (fun sum c => sum + c.y) 0 / n
    let avgW := cluster.foldl (fun sum c => sum + c.width) 0 / n
    let avgH := cluster.foldl (fun sum c => sum + c.height) 0 / n
    { best with
        x := jsRound avgX
        y := jsRound avgY
        width := jsRound avgW
        height := jsRound avgH
        confidence := jsMin 1 (clusterScore best) }

/-- `ImageProcessor.confidenceBasedClustering`. -/
def confidenceBasedClustering (candidates : List FaceCandidate)
    (sensitivity : ℚ) : List FaceCandidate :=
  if candidates.isEmpty then []
  else
    let sorted := sortByConfidenceDesc candidates
    let clusters := sorted.foldl
      (fun cls c => addToClusters (clusterThreshold sensitivity) c cls) []
    clusters.map selectBestFromCluster

/-- The adaptive suppression threshold of
`ImageProcessor.adaptiveNonMaxSuppression`: base 0.4, lowered to 0.25 above
sensitivity 0.7, and scaled by 0.8 when the two areas differ by more than 2x. -/
def nmsThreshold (sensitivity : ℚ) (candidate kept : FaceCandidate) : ℚ :=
  let sizeRatio := jsMin (candidate.width * candidate.height) (kept.width * kept.height) /
    jsMax (candidate.width * candidate.height) (kept.width * kept.height)
  let threshold := if 0.7 < sensitivity then (0.25 : ℚ) else 0.4
  if sizeRatio < 0.5 then threshold * 0.8 else threshold

/-- The greedy keep-loop of `ImageProcessor.adaptiveNonMaxSuppression`:
keep a candidate unless it overlaps an already-kept region above the
adaptive threshold, stopping once 200 regions are kept. -/
def nmsLoop (sensitivity : ℚ) (keep : List FaceCandidate) :
    List FaceCandidate → List FaceCandidate
  | [] => keep
  | candidate :: rest =>
    let shouldKeep := keep.all fun kept =>
      decide (calculateIoU candidate.toRect kept.toRect ≤ nmsThreshold sensitivity candidate kept)
    let keep' := if shouldKeep then keep ++ [candidate] else keep
    if 200 ≤ keep'.length then keep'
    else nmsLoop sensitivity keep' rest

/-- `ImageProcessor.adaptiveNonMaxSuppression`, including its final
projection which clamps `x` and `y` up to 0. -/
def adaptiveNonMaxSuppression (candidates : List FaceCandidate)
    (sensitivity : ℚ) : List Face :=
  if candidates.isEmpty then []
  else
    let sorted := sortByConfidenceDesc candidates
    let keep := nmsLoop sensitivity [] sorted
    keep.map fun c => ⟨jsMax 0 c.x, jsMax 0 c.y, c.width, c.height, c.confidence⟩

/-- `ImageProcessor.advancedEnsembleFusion`: quality filter, then clustering,
then adaptive NMS, truncated to 250 regions. -/
def advancedEnsembleFusion (candidates : List FaceCandidate)
    (imgWidth imgHeight sensitivity : ℚ) : List Face :=
  if candidates.isEmpty then []
  else
    let qualityFiltered := advancedQualityFilter candidates imgWidth imgHeight sensitivity
    let clustered := confidenceBasedClustering qualityFiltered sensitivity
    let finalFaces := adaptiveNonMaxSuppression clustered sensitivity
    finalFaces.take 250

/-- The three pixel transforms of the redaction renderer. -/
inductive RedactionMethod
  | blur
  | pixelate
  | blackout
  deriving DecidableEq, Repr

/-- The transform that actually wrote a region's pixels. -/
inductive AppliedTransform
  | blurred
  | pixelated
  | blackedOut
  deriving DecidableEq, Repr

/-- The region clamping performed at the top of
`ImageProcessor.applyRedactionToFaceWithContext`. -/
def clampFace (canvasWidth canvasHeight : ℚ) (face : Rect) : Rect :=
  let clampedX := jsMax 0 (jsMin face.x (canvasWidth - 1))
  let clampedY := jsMax 0 (jsMin face.y (canvasHeight - 1))
  ⟨clampedX, clampedY,
   jsMin face.width (canvasWidth - clampedX),
   jsMin face.height (canvasHeight - clampedY)⟩

/-- `ImageProcessor.applyRedactionToFaceWithContext`. Pixel-level effects are
abstracted: `fails m` says whether the primitive transform for method `m`
throws (for example, unreadable pixel data). The result records which region
was written and by which transform; `none` means the region was skipped as
empty after clamping. The catch handler (and, inside the blur helper, its
own inner catch) falls back to blackout on the same clamped region; the
blackout fill itself is a plain `fillRect` and cannot fail. -/
def applyRedactionToFaceWithContext (fails : RedactionMethod → Bool)
    (canvasWidth canvasHeight : ℚ) (face : Rect) (method : RedactionMethod) :
    Option (Rect × AppliedTransform) :=
  let clamped := clampFace canvasWidth canvasHeight face
  if clamped.width ≤ 0 ∨ clamped.height ≤ 0 then none
  else some (clamped,
    match method with
    | .blur => if fails .blur then .blackedOut else .blurred
    | .pixelate => if fails .pixelate then .blackedOut else .pixelated
    | .blackout => .blackedOut)

/-- The external outcomes a single `ImageProcessor.detectFaces` call can
encounter. `initializationFails` covers a rejected initialization promise,
an uninitialized processor and an empty loaded-model set, all of which the
source checks before taking the guard. -/
structure DetectEnv where
  initializationFails : Bool
  decodeFails : Bool
  imageWidth : ℚ
  imageHeight : ℚ
  strategiesThrow : Bool
  strategiesResult : List Face
  deriving DecidableEq, Repr

/-- What one `detectFaces` call produced: its returned list, whether the
ensemble detection strategies were invoked at all, and the value of the
single-flight `isProcessing` guard when the call returns. -/
structure DetectOutcome where
  result : List Face
  ranDetection : Bool
  isProcessingAfter : Bool
  deriving DecidableEq, Repr

/-- The control flow of `ImageProcessor.detectFaces`: the single-flight guard
check, the initialization checks, then `isProcessing = true`, the decode and
dimension checks and the ensemble run inside `try`, with the guard reset in
`finally` on every path that took it. -/
def detectFaces (isProcessing : Bool) (env : DetectEnv) : DetectOutcome :=
  if isProcessing then
    { result := [], ranDetection := false, isProcessingAfter := isProcessing }
  else if env.initializationFails then
    { result := [], ranDetection := false, isProcessingAfter := false }
  else if env.decodeFails then
    { result := [], ranDetection := false, isProcessingAfter := false }
  else if env.imageWidth = 0 ∨ env.imageHeight = 0 then
    { result := [], ranDetection := false, isProcessingAfter := false }
  else if env.strategiesThrow then
    { result := [], ranDetection := true, isProcessingAfter := false }
  else
    { result := env.strategiesResult, ranDetection := true, isProcessingAfter := false }

/-- The external outcomes of one full-resolution or preview render. -/
structure RenderEnv where
  decodeFails : Bool
  imageWidth : ℚ
  imageHeight : ℚ
  encodeFails : Bool
  deriving DecidableEq, Repr

/-- A render either yields a surface or rejects with an error message. -/
inductive RenderResult
  | surface
  | failure (msg : String)
  deriving DecidableEq, Repr

/-- The outcome of `ImageProcessor.applyRedaction`: decode failure and
invalid dimensions reject, as does an empty encoded blob. -/
def applyRedactionOutcome (env : RenderEnv) : RenderResult :=
  if env.decodeFails then .failure "Failed to load image"
  else if env.imageWidth = 0 ∨ env.imageHeight = 0 then .failure "Invalid image dimensions"
  else if env.encodeFails then .failure "Failed to create protected image"
  else .surface

/-- The outcome of `ImageProcessor.createLivePreview`: decode failure and
invalid dimensions reject. -/
def createLivePreviewOutcome (env : RenderEnv) : RenderResult :=
  if env.decodeFails then .failure "Failed to load image"
  else if env.imageWidth = 0 ∨ env.imageHeight = 0 then .failure "Invalid image dimensions"
  else .surface

/-- The values the sensitivity slider can take: `min="0" max="2" step="1"`
(0 = Fast, 1 = Balanced, 2 = Thorough). -/
def sensitivityLevels : List ℕ := [0, 1, 2]

/-- The numeric sensitivity scalar that reaches the detection pipeline:
`runFaceDetection(sensitivityLevel)` passes the raw slider level unchanged
to `detectFaces(file, sensitivity)`. -/
def sensitivityScalarForLevel (sensitivityLevel : ℕ) : ℚ := sensitivityLevel

/-- A face region as kept by the `ImageRedaction` component
(`DetectedFace` in the source). -/
structure DetectedFace where
  x : ℚ
  y : ℚ
  width : ℚ
  height : ℚ
  confidence : ℚ
  id : String
  enabled : Bool
  deriving DecidableEq, Repr

/-- Insert a rational into an ascending-sorted list. -/
def insertAsc (q : ℚ) : List ℚ → List ℚ
  | [] => [q]
  | r :: rest => if q ≤ r then q :: r :: rest else r :: insertAsc q rest

/-- The ascending numeric sort `allSizes.sort((a, b) => a - b)` used by the
global-statistics tier of the manual zone heuristic. -/
def sortAsc : List ℚ → List ℚ
  | [] => []
  | q :: rest => insertAsc q (sortAsc rest)

/-- `calculateSmartZoneSize` from the `ImageRedaction` component: three
ordered tiers (local context of nearby regions, global region statistics,
adaptive image-based default). `Math.sqrt` is modelled by an abstract
function parameter; every property proved below holds for every choice,
so no axiom about it is needed. -/
def calculateSmartZoneSize (sqrt : ℚ → ℚ) (clickX clickY : ℚ)
    (existingFaces : List DetectedFace) (imageWidth imageHeight : ℚ) : ℚ :=
  let nearbyFaces := existingFaces.filter fun face =>
    let centerX := face.x + face.width / 2
    let centerY := face.y + face.height / 2
    let distance := sqrt ((clickX - centerX) ^ 2 + (clickY - centerY) ^ 2)
    decide (distance < jsMin imageWidth imageHeight * 0.3)
  if 0 < nearbyFaces.length then
    let avgNearbySize :=
      nearbyFaces.foldl (fun sum face => sum + (face.width + face.height) / 2) 0 /
        (nearbyFaces.length : ℚ)
    jsMax 32 (jsMin 200 avgNearbySize)
  else if 0 < existingFaces.length then
    let allSizes := existingFaces.map fun face => (face.width + face.height) / 2
    let avgSize := allSizes.foldl (· + ·) 0 / (allSizes.length : ℚ)
    let medianSize := (sortAsc allSizes).getD (allSizes.length / 2) 0
    let contextualSize := (avgSize + medianSize) / 2
    jsMax 40 (jsMin 150 contextualSize)
  else
    let imageDPI := sqrt (imageWidth * imageHeight) / 1000
    let centerX := imageWidth / 2
    let centerY := imageHeight / 2
    let distanceFromCenter := sqrt ((clickX - centerX) ^ 2 + (clickY - centerY) ^ 2)
    let maxDistance := sqrt (centerX ^ 2 + centerY ^ 2)
    let centerFactor := 1 + (1 - distanceFromCenter / maxDistance) * 0.3
    jsMax 40 (jsMin 120 (imageDPI * 35 * centerFactor))

/-- C1. For every region whose clamped intersection with the surface has
positive width and height, and for every method, the renderer writes that
exact clamped region (it is never left unmodified), and whenever the chosen
transform fails the region is written by the Blackout fallback. -/
theorem redactionFallback_blackout (fails : RedactionMethod → Bool)
    (canvasWidth canvasHeight : ℚ) (face : Rect) (method : RedactionMethod)
    (hw : 0 < (clampFace canvasWidth canvasHeight face).width)
    (hh : 0 < (clampFace canvasWidth canvasHeight face).height) :
    ∃ t, applyRedactionToFaceWithContext fails canvasWidth canvasHeight face method =
        some (clampFace canvasWidth canvasHeight face, t) ∧
      (fails method = true → t = AppliedTransform.blackedOut) := by
  unfold applyRedactionToFaceWithContext
  simp only
  rw [if_neg (by push_neg; exact ⟨hw, hh⟩)]
  cases method with
  | blur =>
    cases hf : fails RedactionMethod.blur with
    | false => exact ⟨.blurred, by simp [hf], fun h => nomatch h⟩
    | true => exact ⟨.blackedOut, by simp [hf], fun _ => rfl⟩
  | pixelate =>
    cases hf : fails RedactionMethod.pixelate with
    | false => exact ⟨.pixelated, by simp [hf], fun h => nomatch h⟩
    | true => exact ⟨.blackedOut, by simp [hf], fun _ => rfl⟩
  | blackout => exact ⟨.blackedOut, by simp, fun _ => rfl⟩

/-- Witness for `redactionFallback_blackout`: a 20x20 region at (10,10) on a
100x100 canvas with a failing blur transform. -/
theorem redactionFallback_blackout_witness :
    0 < (clampFace 100 100 ⟨10, 10, 20, 20⟩).width ∧
    0 < (clampFace 100 100 ⟨10, 10, 20, 20⟩).height ∧
    ∃ t, applyRedactionToFaceWithContext (fun _ => true) 100 100 ⟨10, 10, 20, 20⟩
          RedactionMethod.blur = some (clampFace 100 100 ⟨10, 10, 20, 20⟩, t) ∧
      ((fun _ : RedactionMethod => true) RedactionMethod.blur = true →
        t = AppliedTransform.blackedOut) :=
  ⟨by norm_num [clampFace, jsMin, jsMax], by norm_num [clampFace, jsMin, jsMax],
   redactionFallback_blackout (fun _ => true) 100 100 ⟨10, 10, 20, 20⟩
     RedactionMethod.blur (by norm_num [clampFace, jsMin, jsMax])
     (by norm_num [clampFace, jsMin, jsMax])⟩

/-- C3. A `detectFaces` call arriving while another pass is in flight
(the `isProcessing` guard is set) returns the empty list without invoking
any detection strategy, whatever the environment would have produced. -/
theorem detectFaces_singleFlight_drop (env : DetectEnv) :
    (detectFaces true env).result = [] ∧ (detectFaces true env).ranDetection = false := by
  constructor <;> simp [detectFaces]

/-- C10. A `detectFaces` call that takes the guard always resets it before
returning: whether detection succeeded, a strategy threw, the image failed
to decode or initialization failed, `isProcessing` is false afterwards. -/
theorem detectFaces_guard_reset (env : DetectEnv) :
    (detectFaces false env).isProcessingAfter = false := by
  unfold detectFaces
  split_ifs <;> rfl

/-- C9 counterexample. A decode failure in `detectFaces` is not surfaced to
the caller: the call resolves with the ordinary empty result list, exactly
as a successful run that found no faces does. -/
theorem decodeFailure_counterexample :
    (detectFaces false ⟨false, true, 100, 100, false, []⟩).result = [] ∧
    (detectFaces false ⟨false, true, 100, 100, false, []⟩).result =
      (detectFaces false ⟨false, false, 100, 100, false, []⟩).result := by
  constructor <;> decide

/-- C9 amended. An image that fails to decode is fatal and surfaced to the
caller with no partial result for `applyRedaction` and `createLivePreview`;
`detectFaces` instead recovers from it, returning the empty region list
(no partial result, but no surfaced error either). -/
theorem decodeFailure_spec :
    (∀ env : RenderEnv, env.decodeFails = true →
      applyRedactionOutcome env = RenderResult.failure "Failed to load image") ∧
    (∀ env : RenderEnv, env.decodeFails = true →
      createLivePreviewOutcome env = RenderResult.failure "Failed to load image") ∧
    (∀ env : DetectEnv, env.decodeFails = true → env.initializationFails = false →
      detectFaces false env =
        { result := [], ranDetection := false, isProcessingAfter := false }) := by
  refine ⟨fun env h => ?_, fun env h => ?_, fun env h hinit => ?_⟩
  · simp [applyRedactionOutcome, h]
  · simp [createLivePreviewOutcome, h]
  · simp [detectFaces, h, hinit]

/-- Witness for `decodeFailure_spec` at a concrete decode-failing
environment with a 100x100 image. -/
theorem decodeFailure_spec_witness :
    applyRedactionOutcome ⟨true, 100, 100, false⟩ =
      RenderResult.failure "Failed to load image" ∧
    createLivePreviewOutcome ⟨true, 100, 100, false⟩ =
      RenderResult.failure "Failed to load image" ∧
    detectFaces false ⟨false, true, 100, 100, false, []⟩ =
      { result := [], ranDetection := false, isProcessingAfter := false } :=
  ⟨decodeFailure_spec.1 ⟨true, 100, 100, false⟩ rfl,
   decodeFailure_spec.2.1 ⟨true, 100, 100, false⟩ rfl,
   decodeFailure_spec.2.2 ⟨false, true, 100, 100, false, []⟩ rfl rfl⟩

/-- C4 counterexample. At the Thorough slider setting the scalar handed to
the detection pipeline is the raw level 2, which is outside `[0, 1]`. -/
theorem sensitivityScalar_counterexample :
    2 ∈ sensitivityLevels ∧ sensitivityScalarForLevel 2 = 2 ∧
    ¬ sensitivityScalarForLevel 2 ≤ 1 := by
  refine ⟨by decide, by norm_num [sensitivityScalarForLevel], ?_⟩
  norm_num [sensitivityScalarForLevel]

/-- C4 amended. The scalar that parameterizes the pipeline's thresholds is
the raw slider level, so it lies in `{0, 1, 2}` hence in `[0, 2]`, not in
`[0, 1]`: Thorough passes 2. -/
theorem sensitivityScalar_range (level : ℕ) (h : level ∈ sensitivityLevels) :
    0 ≤ sensitivityScalarForLevel level ∧ sensitivityScalarForLevel level ≤ 2 := by
  fin_cases h <;> norm_num [sensitivityScalarForLevel]

/-- Witness for `sensitivityScalar_range` at the Balanced level. -/
theorem sensitivityScalar_range_witness :
    1 ∈ sensitivityLevels ∧
    0 ≤ sensitivityScalarForLevel 1 ∧ sensitivityScalarForLevel 1 ≤ 2 :=
  ⟨by decide, sensitivityScalar_range 1 (by decide)⟩

/-- C8. For every point, region list and image size, the manual-zone side
length lies in `[32, 200]`, whichever of the three tiers produced it (the
local-context tier clamps to `[32, 200]`, the global-statistics tier to
`[40, 150]` and the adaptive default to `[40, 120]`), and this holds for
every model of `Math.sqrt`. -/
theorem smartZoneSize_bounds (sqrt : ℚ → ℚ) (clickX clickY : ℚ)
    (existingFaces : List DetectedFace) (imageWidth imageHeight : ℚ) :
    32 ≤ calculateSmartZoneSize sqrt clickX clickY existingFaces imageWidth imageHeight ∧
    calculateSmartZoneSize sqrt clickX clickY existingFaces imageWidth imageHeight ≤ 200 := by
  simp only [calculateSmartZoneSize]
  split_ifs
  · exact ⟨le_jsMax_left _ _,
      jsMax_le (by norm_num) (le_trans (jsMin_le_left _ _) (by norm_num))⟩
  · exact ⟨le_trans (by norm_num) (le_jsMax_left _ _),
      jsMax_le (by norm_num) (le_trans (jsMin_le_left _ _) (by norm_num))⟩
  · exact ⟨le_trans (by norm_num) (le_jsMax_left _ _),
      jsMax_le (by norm_num) (le_trans (jsMin_le_left _ _) (by norm_num))⟩

/-- C7. The quality filter's confidence floor is monotonically non-increasing
in sensitivity, equals 0.36 at sensitivity 0.6 and 0.2 at sensitivity 1.0;
and the filter accepts a candidate exactly when it passes the size window,
the aspect-ratio window, the bounds check and has confidence at least the
floor — so among otherwise admissible candidates it rejects exactly those
whose confidence lies below the floor. -/
theorem qualityFilter_spec :
    (∀ s1 s2 : ℚ, s1 ≤ s2 → confidenceFloor s2 ≤ confidenceFloor s1) ∧
    confidenceFloor 0.6 = 0.36 ∧
    confidenceFloor 1 = 0.2 ∧
    (∀ (imgWidth imgHeight sensitivity : ℚ) (c : FaceCandidate),
      qualityPass imgWidth imgHeight sensitivity c = true ↔
        (jsMin imgWidth imgHeight * (if 0.7 < sensitivity then 0.008 else 0.015) ≤ c.width ∧
         jsMin imgWidth imgHeight * (if 0.7 < sensitivity then 0.008 else 0.015) ≤ c.height ∧
         c.width ≤ jsMin imgWidth imgHeight * 0.8 ∧
         c.height ≤ jsMin imgWidth imgHeight * 0.8 ∧
         0.4 ≤ c.width / c.height ∧ c.width / c.height ≤ 2.5 ∧
         confidenceFloor sensitivity ≤ c.confidence ∧
         0 ≤ c.x ∧ 0 ≤ c.y ∧
         c.x + c.width ≤ imgWidth ∧ c.y + c.height ≤ imgHeight)) := by
  refine ⟨?_, ?_, ?_, ?_⟩
  · intro s1 s2 h
    exact jsMax_le_jsMax_right (by linarith)
  · norm_num [confidenceFloor, jsMax]
  · norm_num [confidenceFloor, jsMax]
  · intro imgWidth imgHeight sensitivity c
    unfold qualityPass
    simp only
    set k := (if (0.7 : ℚ) < sensitivity then (0.008 : ℚ) else 0.015) with hk
    split_ifs with h1 h2 h3 h4 h5 h6
    · simp only [false_iff]
      intro hr
      rcases h1 with h | h
      · linarith [hr.1]
      · linarith [hr.2.1]
    · simp only [false_iff]
      intro hr
      rcases h2 with h | h
      · linarith [hr.2.2.1]
      · linarith [hr.2.2.2.1]
    · simp only [false_iff]
      intro hr
      rcases h3 with h | h
      · linarith [hr.2.2.2.2.1]
      · linarith [hr.2.2.2.2.2.1]
    · simp only [false_iff]
      intro hr
      linarith [hr.2.2.2.2.2.2.1]
    · simp only [false_iff]
      intro hr
      rcases h5 with h | h
      · linarith [hr.2.2.2.2.2.2.2.1]
      · linarith [hr.2.2.2.2.2.2.2.2.1]
    · simp only [false_iff]
      intro hr
      rcases h6 with h | h
      · linarith [hr.2.2.2.2.2.2.2.2.2.1]
      · linarith [hr.2.2.2.2.2.2.2.2.2.2]
    · simp only [true_iff]
      push_neg at h1 h2 h3 h4 h5 h6
      exact ⟨h1.1, h1.2, h2.1, h2.2, h3.1, h3.2, h4, h5.1, h5.2, h6.1, h6.2⟩

/-- Witness for `qualityFilter_spec`: the floor is lower at sensitivity 1
than at 0.6, and a concrete in-bounds candidate passes the filter. -/
theorem qualityFilter_spec_witness :
    confidenceFloor 1 ≤ confidenceFloor 0.6 ∧
    qualityPass 1000 1000 0.6 ⟨910, 0, 90, 80, 9/10, "a", false⟩ = true :=
  ⟨qualityFilter_spec.1 0.6 1 (by norm_num),
   (qualityFilter_spec.2.2.2 1000 1000 0.6 ⟨910, 0, 90, 80, 9/10, "a", false⟩).mpr
     (by norm_num [jsMin, confidenceFloor, jsMax])⟩

/-- First member of a candidate pair whose rectangles have IoU exactly 0.4. -/
def iouPairA : FaceCandidate := ⟨0, 0, 10, 10, 9/10, "a", false⟩

/-- Companion of `iouPairA`: the 10x25 box overlaps the 10x10 box with
intersection 100 and union 250, so their IoU is 0.4. -/
def iouPairB : FaceCandidate := ⟨0, 0, 10, 25, 8/10, "a", false⟩

lemma strIncludes_a : strIncludes "a" "MediaPipe Full" = false := rfl

lemma iouPair_iou : calculateIoU iouPairB.toRect iouPairA.toRect = 2/5 := by
  norm_num [calculateIoU, jsMin, jsMax, iouPairA, iouPairB, FaceCandidate.toRect]

lemma iouPair_sorted :
    sortByConfidenceDesc [iouPairA, iouPairB] = [iouPairA, iouPairB] := by
  norm_num [sortByConfidenceDesc, insertByConfidenceDesc, iouPairA, iouPairB]

lemma iouPair_clusters (s : ℚ) :
    (confidenceBasedClustering [iouPairA, iouPairB] s).length =
      if clusterThreshold s < 2/5 then 1 else 2 := by
  unfold confidenceBasedClustering
  rw [if_neg (by simp)]
  simp only [iouPair_sorted, List.foldl_cons, List.foldl_nil]
  simp only [addToClusters, iouPair_iou]
  split_ifs with h
  · simp
  · simp [addToClusters]

/-- C6 counterexample. At sensitivity exactly 0.7 the code still uses the
0.5 clustering threshold (`sensitivity > 0.7` is strict), so the candidate
pair with IoU 0.4 remains two clusters, while the claim's "0.3 at or above
0.7" predicts one. -/
theorem clusterThreshold_counterexample :
    calculateIoU iouPairB.toRect iouPairA.toRect = 2/5 ∧
    clusterThreshold 0.7 = 0.5 ∧
    (confidenceBasedClustering [iouPairA, iouPairB] 0.7).length = 2 := by
  refine ⟨iouPair_iou, by norm_num [clusterThreshold], ?_⟩
  rw [iouPair_clusters]
  norm_num [clusterThreshold]

/-- C6 amended. The clustering stage merges a candidate into the first
cluster whose representative has IoU with it strictly above the threshold,
where the threshold is 0.5 for sensitivity at or below 0.7 and 0.3 strictly
above 0.7; the pair with IoU 0.4 merges into one cluster at sensitivity 0.8
and remains two clusters at sensitivity 0.5. -/
theorem clustering_spec :
    (∀ s : ℚ, s ≤ 0.7 → clusterThreshold s = 0.5) ∧
    (∀ s : ℚ, 0.7 < s → clusterThreshold s = 0.3) ∧
    (∀ (thr : ℚ) (c rep : FaceCandidate) (ms : List FaceCandidate) (rest : List Cluster),
      thr < calculateIoU c.toRect rep.toRect →
      addToClusters thr c ((rep, ms) :: rest) = (rep, ms ++ [c]) :: rest) ∧
    (∀ (thr : ℚ) (c rep : FaceCandidate) (ms : List FaceCandidate) (rest : List Cluster),
      ¬ thr < calculateIoU c.toRect rep.toRect →
      addToClusters thr c ((rep, ms) :: rest) = (rep, ms) :: addToClusters thr c rest) ∧
    (confidenceBasedClustering [iouPairA, iouPairB] 0.8).length = 1 ∧
    (confidenceBasedClustering [iouPairA, iouPairB] 0.5).length = 2 := by
  refine ⟨fun s hs => ?_, fun s hs => ?_,
    fun thr c rep ms rest h => ?_, fun thr c rep ms rest h => ?_, ?_, ?_⟩
  · unfold clusterThreshold
    rw [if_neg (not_lt.mpr hs)]
  · unfold clusterThreshold
    rw [if_pos hs]
  · simp only [addToClusters]
    rw [if_pos h]
  · simp only [addToClusters]
    rw [if_neg h]
  · rw [iouPair_clusters]
    norm_num [clusterThreshold]
  · rw [iouPair_clusters]
    norm_num [clusterThreshold]

/-- Witness for `clustering_spec` at concrete inputs: thresholds at 0.5 and
0.8, and the two branches of the cluster-insertion step on the IoU-0.4 pair. -/
theorem clustering_spec_witness :
    clusterThreshold 0.5 = 0.5 ∧ clusterThreshold 0.8 = 0.3 ∧
    addToClusters 0.3 iouPairB [(iouPairA, [])] = [(iouPairA, [iouPairB])] ∧
    addToClusters 0.5 iouPairB [(iouPairA, [])] = [(iouPairA, []), (iouPairB, [])] := by
  refine ⟨clustering_spec.1 0.5 (by norm_num), clustering_spec.2.1 0.8 (by norm_num), ?_, ?_⟩
  · have h := clustering_spec.2.2.1 0.3 iouPairB iouPairA [] []
      (by rw [iouPair_iou]; norm_num)
    simpa using h
  · have h := clustering_spec.2.2.2.1 0.5 iouPairB iouPairA [] []
      (by rw [iouPair_iou]; norm_num)
    rw [h]
    simp [addToClusters]

lemma jsRound_nonneg {q : ℚ} (h : 0 ≤ q) : 0 ≤ jsRound q := by
  unfold jsRound
  have h2 : (0 : ℤ) ≤ ⌊q + 1 / 2⌋ := Int.floor_nonneg.mpr (by linarith)
  exact_mod_cast h2

lemma jsRound_le_add_half (q : ℚ) : jsRound q ≤ q + 1 / 2 := by
  unfold jsRound
  exact Int.floor_le _

lemma jsRound_eval {q : ℚ} {n : ℤ} (h1 : (n : ℚ) ≤ q + 1 / 2)
    (h2 : q + 1 / 2 < (n : ℚ) + 1) : jsRound q = (n : ℚ) := by
  unfold jsRound
  have h3 : ⌊q + 1 / 2⌋ = n := Int.floor_eq_iff.mpr ⟨h1, by linarith⟩
  rw [h3]

lemma foldl_add_map (f : FaceCandidate → ℚ) (l : List FaceCandidate) (a : ℚ) :
    l.foldl (fun sum c => sum + f c) a = a + (l.map f).sum := by
  induction l generalizing a with
  | nil => simp
  | cons c rest ih =>
    simp only [List.foldl_cons, List.map_cons, List.sum_cons, ih]
    ring

lemma sum_map_nonneg (f : FaceCandidate → ℚ) (l : List FaceCandidate)
    (h : ∀ m ∈ l, 0 ≤ f m) : 0 ≤ (l.map f).sum := by
  induction l with
  | nil => simp
  | cons c rest ih =>
    simp only [List.map_cons, List.sum_cons]
    have h1 := h c (List.mem_cons_self _ _)
    have h2 := ih fun m hm => h m (List.mem_cons_of_mem _ hm)
    linarith

lemma sum_map_le_card_mul {W : ℚ} (f : FaceCandidate → ℚ) (l : List FaceCandidate)
    (h : ∀ m ∈ l, f m ≤ W) : (l.map f).sum ≤ (l.length : ℚ) * W := by
  induction l with
  | nil => simp
  | cons c rest ih =>
    simp only [List.map_cons, List.sum_cons, List.length_cons]
    have h1 := h c (List.mem_cons_self _ _)
    have h2 := ih fun m hm => h m (List.mem_cons_of_mem _ hm)
    push_cast
    linarith

lemma sum_map_add (f g : FaceCandidate → ℚ) (l : List FaceCandidate) :
    (l.map fun m => f m + g m).sum = (l.map f).sum + (l.map g).sum := by
  induction l with
  | nil => simp
  | cons c rest ih =>
    simp only [List.map_cons, List.sum_cons, ih]
    ring

/-- Candidates that survive the quality filter lie inside the image bounds. -/
lemma qualityPass_bounds {imgWidth imgHeight sensitivity : ℚ} {c : FaceCandidate}
    (h : qualityPass imgWidth imgHeight sensitivity c = true) :
    0 ≤ c.x ∧ 0 ≤ c.y ∧ c.x + c.width ≤ imgWidth ∧ c.y + c.height ≤ imgHeight := by
  unfold qualityPass at h
  simp only at h
  set k := (if (0.7 : ℚ) < sensitivity then (0.008 : ℚ) else 0.015) with hk
  split_ifs at h with h1 h2 h3 h4 h5 h6
  push_neg at h5 h6
  exact ⟨h5.1, h5.2, h6.1, h6.2⟩

lemma mem_insertByConfidenceDesc {c d : FaceCandidate} {l : List FaceCandidate}
    (h : d ∈ insertByConfidenceDesc c l) : d = c ∨ d ∈ l := by
  induction l with
  | nil => simpa [insertByConfidenceDesc] using h
  | cons e rest ih =>
    rw [insertByConfidenceDesc] at h
    split_ifs at h with hc
    · rcases List.mem_cons.mp h with h | h
      · exact Or.inr (by simp [h])
      · rcases ih h with h | h
        · exact Or.inl h
        · exact Or.inr (List.mem_cons_of_mem e h)
    · rcases List.mem_cons.mp h with h | h
      · exact Or.inl h
      · exact Or.inr h

lemma mem_sortByConfidenceDesc {d : FaceCandidate} {l : List FaceCandidate}
    (h : d ∈ sortByConfidenceDesc l) : d ∈ l := by
  induction l with
  | nil => simp [sortByConfidenceDesc] at h
  | cons c rest ih =>
    rw [sortByConfidenceDesc] at h
    rcases mem_insertByConfidenceDesc h with h | h
    · simp [h]
    · exact List.mem_cons_of_mem _ (ih h)

/-- Every member of a cluster produced by one insertion step is either the
inserted candidate or a member of one of the previous clusters. -/
lemma mem_addToClusters {thr : ℚ} {c m : FaceCandidate} {cls : List Cluster} {cl : Cluster}
    (hcl : cl ∈ addToClusters thr c cls) (hm : m ∈ cl.members) :
    m = c ∨ ∃ cl' ∈ cls, m ∈ cl'.members := by
  induction cls with
  | nil =>
    simp only [addToClusters, List.mem_singleton] at hcl
    subst hcl
    simp only [Cluster.members, List.mem_singleton] at hm
    exact Or.inl hm
  | cons p rest ih =>
    obtain ⟨rep, ms⟩ := p
    rw [addToClusters] at hcl
    split_ifs at hcl with hiou
    · rcases List.mem_cons.mp hcl with h | h
      · subst h
        rcases List.mem_cons.mp hm with h | h
        · exact Or.inr ⟨(rep, ms), List.mem_cons_self _ _, by simp [Cluster.members, h]⟩
        · rcases List.mem_append.mp h with h | h
          · exact Or.inr ⟨(rep, ms), List.mem_cons_self _ _,
              by simp [Cluster.members, h]⟩
          · simp only [List.mem_singleton] at h
            exact Or.inl h
      · exact Or.inr ⟨cl, List.mem_cons_of_mem _ h, hm⟩
    · rcases List.mem_cons.mp hcl with h | h
      · subst h
        exact Or.inr ⟨(rep, ms), List.mem_cons_self _ _, hm⟩
      · rcases ih h with h | ⟨cl', hcl', hm'⟩
        · exact Or.inl h
        · exact Or.inr ⟨cl', List.mem_cons_of_mem _ hcl', hm'⟩

/-- Invariant of the clustering fold: a predicate true of all incoming
candidates and of all members of the accumulated clusters is true of all
members of the resulting clusters. -/
lemma foldl_addToClusters_members {thr : ℚ} (P : FaceCandidate → Prop) :
    ∀ (l : List FaceCandidate) (acc : List Cluster),
      (∀ cl ∈ acc, ∀ m ∈ cl.members, P m) → (∀ c ∈ l, P c) →
      ∀ cl ∈ l.foldl (fun cls c => addToClusters thr c cls) acc,
        ∀ m ∈ cl.members, P m := by
  intro l
  induction l with
  | nil =>
    intro acc hacc _ cl hcl m hm
    exact hacc cl hcl m hm
  | cons c rest ih =>
    intro acc hacc hl cl hcl m hm
    rw [List.foldl_cons] at hcl
    refine ih (addToClusters thr c acc) ?_
      (fun d hd => hl d (List.mem_cons_of_mem _ hd)) cl hcl m hm
    intro cl' hcl' m' hm'
    rcases mem_addToClusters hcl' hm' with h | ⟨cl'', hcl'', hm''⟩
    · rw [h]
      exact hl c (List.mem_cons_self _ _)
    · exact hacc cl'' hcl'' m' hm''

/-- The cluster representative selection keeps each coordinate bound within
one pixel: averaging preserves the bounds exactly and `Math.round` moves
each of the two summed coordinates by at most a half. -/
lemma selectBestFromCluster_bounds {imgWidth imgHeight : ℚ} (cl : Cluster)
    (hb : ∀ m ∈ cl.members,
      0 ≤ m.x ∧ 0 ≤ m.y ∧ m.x + m.width ≤ imgWidth ∧ m.y + m.height ≤ imgHeight) :
    0 ≤ (selectBestFromCluster cl).x ∧ 0 ≤ (selectBestFromCluster cl).y ∧
    (selectBestFromCluster cl).x + (selectBestFromCluster cl).width ≤ imgWidth + 1 ∧
    (selectBestFromCluster cl).y + (selectBestFromCluster cl).height ≤ imgHeight + 1 := by
  obtain ⟨rep, ms⟩ := cl
  cases ms with
  | nil =>
    have h := hb rep (by simp [Cluster.members])
    simp only [selectBestFromCluster]
    exact ⟨h.1, h.2.1, by linarith [h.2.2.1], by linarith [h.2.2.2]⟩
  | cons m ms' =>
    have hmem : ∀ x ∈ rep :: m :: ms',
        0 ≤ x.x ∧ 0 ≤ x.y ∧ x.x + x.width ≤ imgWidth ∧ x.y + x.height ≤ imgHeight := by
      intro x hx
      exact hb x (by simpa [Cluster.members] using hx)
    have hn : (0 : ℚ) < ((rep :: m :: ms').length : ℚ) := by
      exact_mod_cast List.length_pos.mpr (List.cons_ne_nil _ _)
    simp only [selectBestFromCluster]
    rw [foldl_add_map, foldl_add_map, foldl_add_map, foldl_add_map]
    simp only [zero_add]
    set l := rep :: m :: ms' with hl
    set n : ℚ := (l.length : ℚ) with hnq
    have hSx : 0 ≤ (l.map fun c => c.x).sum :=
      sum_map_nonneg _ _ fun m hm => (hmem m hm).1
    have hSy : 0 ≤ (l.map fun c => c.y).sum :=
      sum_map_nonneg _ _ fun m hm => (hmem m hm).2.1
    have hSxw : (l.map fun c => c.x).sum + (l.map fun c => c.width).sum ≤ n * imgWidth := by
      rw [← sum_map_add]
      exact sum_map_le_card_mul _ _ fun m hm => (hmem m hm).2.2.1
    have hSyh : (l.map fun c => c.y).sum + (l.map fun c => c.height).sum ≤ n * imgHeight := by
      rw [← sum_map_add]
      exact sum_map_le_card_mul _ _ fun m hm => (hmem m hm).2.2.2
    have havgx : 0 ≤ (l.map fun c => c.x).sum / n := div_nonneg hSx (le_of_lt hn)
    have havgy : 0 ≤ (l.map fun c => c.y).sum / n := div_nonneg hSy (le_of_lt hn)
    have hdivxw : (l.map fun c => c.x).sum / n + (l.map fun c => c.width).sum / n ≤ imgWidth := by
      rw [div_add_div_same, div_le_iff₀ hn, mul_comm]
      exact hSxw
    have hdivyh : (l.map fun c => c.y).sum / n + (l.map fun c => c.height).sum / n ≤ imgHeight := by
      rw [div_add_div_same, div_le_iff₀ hn, mul_comm]
      exact hSyh
    refine ⟨jsRound_nonneg havgx, jsRound_nonneg havgy, ?_, ?_⟩
    · have a1 := jsRound_le_add_half ((l.map fun c => c.x).sum / n)
      have a2 := jsRound_le_add_half ((l.map fun c => c.width).sum / n)
      linarith
    · have a1 := jsRound_le_add_half ((l.map fun c => c.y).sum / n)
      have a2 := jsRound_le_add_half ((l.map fun c => c.height).sum / n)
      linarith

/-- Everything the NMS keep-loop returns was already kept or comes from its
input list. -/
lemma mem_nmsLoop {sensitivity : ℚ} {out : FaceCandidate} :
    ∀ (l keep : List FaceCandidate), out ∈ nmsLoop sensitivity keep l →
      out ∈ keep ∨ out ∈ l := by
  intro l
  induction l with
  | nil =>
    intro keep h
    rw [nmsLoop] at h
    exact Or.inl h
  | cons c rest ih =>
    intro keep h
    simp only [nmsLoop] at h
    split_ifs at h with hsk hlen hlen
    · rcases List.mem_append.mp h with h | h
      · exact Or.inl h
      · simp only [List.mem_singleton] at h
        exact Or.inr (by simp [h])
    · rcases ih _ h with h | h
      · rcases List.mem_append.mp h with h | h
        · exact Or.inl h
        · simp only [List.mem_singleton] at h
          exact Or.inr (by simp [h])
      · exact Or.inr (List.mem_cons_of_mem _ h)
    · exact Or.inl h
    · rcases ih _ h with h | h
      · exact Or.inl h
      · exact Or.inr (List.mem_cons_of_mem _ h)

/-- C2 amended. Every region returned by the fusion pipeline satisfies
`0 ≤ x`, `0 ≤ y`, `x + width ≤ imageWidth + 1` and
`y + height ≤ imageHeight + 1`: the quality filter enforces the exact
bounds, but the rounding of cluster-averaged geometry can overshoot each
image bound by up to one pixel (see `fusionBounds_counterexample`). -/
theorem fusionBounds_amended (candidates : List FaceCandidate)
    (imgWidth imgHeight sensitivity : ℚ) :
    ∀ r ∈ advancedEnsembleFusion candidates imgWidth imgHeight sensitivity,
      0 ≤ r.x ∧ 0 ≤ r.y ∧
      r.x + r.width ≤ imgWidth + 1 ∧ r.y + r.height ≤ imgHeight + 1 := by
  intro r hr
  unfold advancedEnsembleFusion at hr
  split_ifs at hr with hemp
  · simp at hr
  · simp only at hr
    have hr1 := List.mem_of_mem_take hr
    unfold adaptiveNonMaxSuppression at hr1
    split_ifs at hr1 with hemp2
    · simp at hr1
    · simp only at hr1
      rcases List.mem_map.mp hr1 with ⟨c, hc, rfl⟩
      have hc1 : c ∈ sortByConfidenceDesc (confidenceBasedClustering
          (advancedQualityFilter candidates imgWidth imgHeight sensitivity) sensitivity) := by
        rcases mem_nmsLoop _ _ hc with h | h
        · simp at h
        · exact h
      have hc2 := mem_sortByConfidenceDesc hc1
      unfold confidenceBasedClustering at hc2
      split_ifs at hc2 with hemp3
      · simp at hc2
      · simp only at hc2
        rcases List.mem_map.mp hc2 with ⟨cl, hcl, rfl⟩
        have hP : ∀ m ∈ cl.members, 0 ≤ m.x ∧ 0 ≤ m.y ∧
            m.x + m.width ≤ imgWidth ∧ m.y + m.height ≤ imgHeight := by
          refine foldl_addToClusters_members _ _ [] (by simp) ?_ cl hcl
          intro d hd
          have hd1 := mem_sortByConfidenceDesc hd
          exact qualityPass_bounds (List.mem_filter.mp hd1).2
        have hsel := selectBestFromCluster_bounds cl hP
        refine ⟨le_jsMax_left _ _, le_jsMax_left _ _, ?_, ?_⟩
        · show jsMax 0 (selectBestFromCluster cl).x + (selectBestFromCluster cl).width ≤
            imgWidth + 1
          rw [jsMax_eq_right hsel.1]
          exact hsel.2.2.1
        · show jsMax 0 (selectBestFromCluster cl).y + (selectBestFromCluster cl).height ≤
            imgHeight + 1
          rw [jsMax_eq_right hsel.2.1]
          exact hsel.2.2.2

/-- First member of a boundary candidate pair: both rectangles end exactly at
the right image edge of a 1000-wide image, but the averages of their `x` and
`width` both end in one half, so rounding both up overshoots the edge. -/
def wideCandidateA : FaceCandidate := ⟨910, 0, 90, 80, 9/10, "a", false⟩

/-- Companion of `wideCandidateA` (confidence 0.8, IoU with it 89/90). -/
def wideCandidateB : FaceCandidate := ⟨911, 0, 89, 80, 8/10, "a", false⟩

lemma wide_qualityA : qualityPass 1000 1000 0.6 wideCandidateA = true := by
  norm_num [qualityPass, confidenceFloor, jsMin, jsMax, wideCandidateA]

lemma wide_qualityB : qualityPass 1000 1000 0.6 wideCandidateB = true := by
  norm_num [qualityPass, confidenceFloor, jsMin, jsMax, wideCandidateB]

lemma wide_filter :
    advancedQualityFilter [wideCandidateA, wideCandidateB] 1000 1000 0.6 =
      [wideCandidateA, wideCandidateB] := by
  simp [advancedQualityFilter, List.filter_cons, wide_qualityA, wide_qualityB]

lemma wide_sorted :
    sortByConfidenceDesc [wideCandidateA, wideCandidateB] =
      [wideCandidateA, wideCandidateB] := by
  norm_num [sortByConfidenceDesc, insertByConfidenceDesc, wideCandidateA, wideCandidateB]

lemma wide_iou : calculateIoU wideCandidateB.toRect wideCandidateA.toRect = 89/90 := by
  norm_num [calculateIoU, jsMin, jsMax, wideCandidateA, wideCandidateB, FaceCandidate.toRect]

lemma wide_scoreA : clusterScore wideCandidateA = 9/10 := by
  simp [clusterScore, wideCandidateA, strIncludes_a]

lemma wide_scoreB : clusterScore wideCandidateB = 8/10 := by
  simp [clusterScore, wideCandidateB, strIncludes_a]

lemma jsRound_eq {q r : ℚ} (n : ℤ) (h1 : (n : ℚ) ≤ q + 1 / 2)
    (h2 : q + 1 / 2 < (n : ℚ) + 1) (h3 : (n : ℚ) = r) : jsRound q = r := by
  rw [jsRound_eval h1 h2, h3]

lemma wide_selectBest :
    selectBestFromCluster (wideCandidateA, [wideCandidateB]) =
      ⟨911, 0, 90, 80, 9/10, "a", false⟩ := by
  simp only [selectBestFromCluster, List.foldl_cons, List.foldl_nil, List.length_cons,
    List.length_nil, wide_scoreA, wide_scoreB]
  norm_num [wideCandidateA, wideCandidateB, jsMin]
  refine ⟨jsRound_eq 911 (by norm_num) (by norm_num) (by norm_num),
    jsRound_eq 0 (by norm_num) (by norm_num) (by norm_num),
    jsRound_eq 90 (by norm_num) (by norm_num) (by norm_num),
    jsRound_eq 80 (by norm_num) (by norm_num) (by norm_num), ?_⟩
  rw [show clusterScore ⟨910, 0, 90, 80, 9/10, "a", false⟩ = 9/10 from wide_scoreA]
  norm_num

lemma wide_cluster :
    confidenceBasedClustering [wideCandidateA, wideCandidateB] 0.6 =
      [⟨911, 0, 90, 80, 9/10, "a", false⟩] := by
  unfold confidenceBasedClustering
  rw [if_neg (by simp)]
  simp only [wide_sorted, List.foldl_cons, List.foldl_nil]
  simp only [addToClusters, wide_iou]
  rw [if_pos (by norm_num [clusterThreshold])]
  simp only [List.nil_append, List.map_cons, List.map_nil, wide_selectBest]

lemma wide_nms :
    adaptiveNonMaxSuppression [(⟨911, 0, 90, 80, 9/10, "a", false⟩ : FaceCandidate)] 0.6 =
      [⟨911, 0, 90, 80, 9/10⟩] := by
  unfold adaptiveNonMaxSuppression
  rw [if_neg (by simp)]
  simp only [sortByConfidenceDesc, insertByConfidenceDesc, nmsLoop, List.all_nil,
    List.nil_append, List.length_cons, List.length_nil]
  norm_num [jsMax, FaceCandidate.toRect]

lemma wide_fusion :
    advancedEnsembleFusion [wideCandidateA, wideCandidateB] 1000 1000 0.6 =
      [⟨911, 0, 90, 80, 9/10⟩] := by
  unfold advancedEnsembleFusion
  rw [if_neg (by simp)]
  simp only [wide_filter, wide_cluster, wide_nms]
  simp

/-- C2 counterexample. The fusion pipeline on this in-bounds candidate pair
over a 1000x1000 image returns the region with `x = 911` and `width = 90`,
whose right edge `x + width = 1001` exceeds the image width, refuting
`x + width ≤ imageWidth`: the cluster averages `x = 910.5`, `width = 89.5`
and `Math.round` pushes both halves up. -/
theorem fusionBounds_counterexample :
    advancedEnsembleFusion [wideCandidateA, wideCandidateB] 1000 1000 0.6 =
      [⟨911, 0, 90, 80, 9/10⟩] ∧
    ¬ ((911 : ℚ) + 90 ≤ 1000) :=
  ⟨wide_fusion, by norm_num⟩

/-- Witness for `fusionBounds_amended` at the concrete boundary pair: the
returned region satisfies the amended (one-pixel-slack) bounds. -/
theorem fusionBounds_amended_witness :
    0 ≤ (Face.mk 911 0 90 80 (9/10)).x ∧ 0 ≤ (Face.mk 911 0 90 80 (9/10)).y ∧
    (Face.mk 911 0 90 80 (9/10)).x + (Face.mk 911 0 90 80 (9/10)).width ≤ 1000 + 1 ∧
    (Face.mk 911 0 90 80 (9/10)).y + (Face.mk 911 0 90 80 (9/10)).height ≤ 1000 + 1 :=
  fusionBounds_amended [wideCandidateA, wideCandidateB] 1000 1000 0.6
    ⟨911, 0, 90, 80, 9/10⟩ (by rw [wide_fusion]; exact List.mem_singleton.mpr rfl)

end MediaVizard
